import Mathlib

/-!
Shallow embedding of the openhiven.py gateway core:
`openhivenpy/events/__init__.py` (listener registry and dispatcher) and
`openhivenpy/gateway/websocket.py` (KeepAlive, HivenWebSocket).
Python coroutines are modelled by their observable outcome (whether the
callback is a coroutine function and whether awaiting it raises); machine
state (registry dict, listener attributes, log) is threaded explicitly.
-/

namespace OpenHiven

/- ### Event-name normalization

Every registration/dispatch/wait path applies the Python expression
`name.replace('on_', '')`, which removes every non-overlapping occurrence
of the substring `on_`, scanning left to right - not only a leading prefix.
`pyReplaceOnAux` is fuelled by the length of the string; one fuel unit is
spent per step and each step consumes at least one character, so the fuel
never runs out before the character list does. -/

def pyReplaceOnAux : Nat → List Char → List Char
  | 0, s => s
  | _ + 1, [] => []
  | fuel + 1, 'o' :: 'n' :: '_' :: rest => pyReplaceOnAux fuel rest
  | fuel + 1, c :: rest => c :: pyReplaceOnAux fuel rest

/-- Embedding of the Python expression `s.replace('on_', '')`. -/
def pyReplaceOn (s : String) : String :=
  ⟨pyReplaceOnAux s.toList.length s.toList⟩

/- ### Errors

The Python exception classes that the modelled code can raise. -/

inductive PyErr
  | keyError
  | valueError
  | unknownEventError
  | expectedAsyncFunction
  | sessionCreateError
  | restartSessionError
  | internalError
deriving DecidableEq

/- ### Listeners

A listener object. `isCoroFn` models `inspect.iscoroutinefunction(self.coro)`
(false in particular when `coro is None`); `coroRaises` models whether
awaiting the coroutine raises an exception. The remaining fields are the
mutable attributes `_dispatched`, `_event_data`, `_args`, `_kwargs` of
`SingleDispatchEventListener` (unused by the multi variant). Payloads are
taken from `Nat`, positional args from `List Nat` and keyword args from
`List (String × Nat)`. -/

inductive ListenerKind
  | single
  | multi
deriving DecidableEq

structure Listener where
  id : Nat
  event_name : String
  kind : ListenerKind
  isCoroFn : Bool
  coroRaises : Bool
  dispatched : Bool := false
  event_data : Option Nat := none
  args : Option (List Nat) := none
  kwargs : Option (List (String × Nat)) := none
deriving DecidableEq

/- ### The client state

`active_listeners` is the Python dict mapping event names to lists of
listener objects; listeners are identified by `id` (Python object identity)
and their attribute state lives in `store`. `log` records the messages
written by `utils.log_traceback`. -/

structure Client where
  store : List Listener
  active_listeners : List (String × List Nat)
  nextId : Nat
  log : List String
deriving DecidableEq

def clientInit : Client :=
  { store := [], active_listeners := [], nextId := 0, log := [] }

/-- Python `dict.get`. -/
def dictGet (m : List (String × List Nat)) (k : String) : Option (List Nat) :=
  (m.find? (fun p => p.1 = k)).map (fun p => p.2)

/-- Python `dict.__setitem__`: rebind an existing key in place (a dict's
keys are unique, so updating the first binding is the dict assignment),
otherwise append the new binding (insertion order preserved). -/
def dictSet : List (String × List Nat) → String → List Nat → List (String × List Nat)
  | [], k, v => [(k, v)]
  | p :: m, k, v => if p.1 = k then (k, v) :: m else p :: dictSet m k v

/-- Look a listener object up by identity. -/
def storeGet (c : Client) (lid : Nat) : Option Listener :=
  c.store.find? (fun l => l.id = lid)

/-- Write a listener object's mutated attributes back. -/
def storeSet (c : Client) (l : Listener) : Client :=
  { c with store := c.store.map (fun x => if x.id = l.id then l else x) }

/-- Python `list.remove`: drops the first occurrence, raises `ValueError`
when absent. -/
def pyListRemove (lid : Nat) : List Nat → Except PyErr (List Nat)
  | [] => .error .valueError
  | x :: xs => if x = lid then .ok xs else (pyListRemove lid xs).map (fun r => x :: r)

/-- The first-occurrence removal that `pyListRemove` performs on success. -/
def removeFirst (lid : Nat) : List Nat → List Nat
  | [] => []
  | x :: xs => if x = lid then xs else x :: removeFirst lid xs

/-- Source `add_listener(client, listener)`: append to the bucket when
`client.active_listeners.get(event_name)` is truthy (present and
non-empty), otherwise set the bucket to the one-element list. -/
def add_listener (c : Client) (l : Listener) : Client :=
  match dictGet c.active_listeners l.event_name with
  | some (i :: is) =>
      { c with active_listeners :=
          dictSet c.active_listeners l.event_name ((i :: is) ++ [l.id]) }
  | _ =>
      { c with active_listeners := dictSet c.active_listeners l.event_name [l.id] }

/-- Source `remove_listener(client, listener)`: `list.remove` on the bucket when it
is truthy, otherwise `KeyError`. -/
def remove_listener (c : Client) (l : Listener) : Except PyErr Client :=
  match dictGet c.active_listeners l.event_name with
  | some (i :: is) =>
      (pyListRemove l.id (i :: is)).map (fun b =>
        { c with active_listeners := dictSet c.active_listeners l.event_name b })
  | _ => .error .keyError

/-- Shared body of `SingleDispatchEventListener.__init__` and `MultiDispatchEventListener.__init__`:
create the listener object and `add_listener` it. Returns the new object's id. -/
def newListener (c : Client) (event_name : String) (kind : ListenerKind)
    (isCoroFn coroRaises : Bool) : Client × Nat :=
  let l : Listener :=
    { id := c.nextId, event_name := event_name, kind := kind,
      isCoroFn := isCoroFn, coroRaises := coroRaises }
  let c := { c with store := c.store ++ [l], nextId := c.nextId + 1 }
  (add_listener c l, l.id)

/-- The message written by `utils.log_traceback` when a listener's coroutine
raises (it names the originating event). -/
def logMsg (event_name : String) : String :=
  "EventListener for the event " ++ event_name ++ " failed to execute due to an exception"

/- ### Listener dispatch

`SingleDispatchEventListener.dispatch`: store `_event_data`; inside
`try`, when the callback is a coroutine function store `_args`/`_kwargs`
and await it, any exception being caught and logged; then set
`_dispatched = True` and `remove_listener` (outside the `try`, so a
registry bookkeeping failure would propagate - recorded here as the
`Option PyErr` component while the mutations made so far persist). -/

/-- The attribute mutations and the `try`/`except` block of
`SingleDispatchEventListener.dispatch`: store `_event_data`; when the
callback is a coroutine function store `_args`/`_kwargs` and await it,
any exception being caught and logged; set `_dispatched = True`. Returns
the mutated listener object and the log lines written. -/
def singleDispatchCore (l : Listener) (event_data : Nat) (args : List Nat)
    (kwargs : List (String × Nat)) : Listener × List String :=
  let l := { l with event_data := some event_data }
  let p :=
    if l.isCoroFn then
      let l := { l with args := some args, kwargs := some kwargs }
      if l.coroRaises then (l, [logMsg l.event_name]) else (l, [])
    else (l, [])
  ({ p.1 with dispatched := true }, p.2)

def singleDispatch (c : Client) (lid : Nat) (event_data : Nat)
    (args : List Nat) (kwargs : List (String × Nat)) : Client × Option PyErr :=
  match storeGet c lid with
  | none => (c, some .internalError)
  | some l =>
    let p := singleDispatchCore l event_data args kwargs
    let c := storeSet c p.1
    let c := { c with log := c.log ++ p.2 }
    match remove_listener c p.1 with
    | .ok c' => (c', none)
    | .error e => (c, some e)

/-- Source `MultiDispatchEventListener.dispatch`: await the coroutine inside
`try`, catching and logging any exception; no attribute is mutated. -/
def multiDispatch (c : Client) (lid : Nat) : Client × Option PyErr :=
  match storeGet c lid with
  | none => (c, some .internalError)
  | some l =>
    if l.isCoroFn && l.coroRaises then
      ({ c with log := c.log ++ [logMsg l.event_name] }, none)
    else (c, none)

/-- Running one listener task of a dispatch (`e(event_data, *args, **kwargs)`). -/
def listenerRun (c : Client) (lid : Nat) (event_data : Nat)
    (args : List Nat) (kwargs : List (String × Nat)) : Client × Option PyErr :=
  match storeGet c lid with
  | none => (c, some .internalError)
  | some l =>
    match l.kind with
    | .single => singleDispatch c lid event_data args kwargs
    | .multi => multiDispatch c lid

/-- Semantics of `asyncio.gather(*tasks)`: every scheduled task runs to completion even
when a sibling task raises; the first raised exception (if any) is the one
`gather` re-raises. -/
def gatherRun (c : Client) (event_data : Nat) (args : List Nat)
    (kwargs : List (String × Nat)) : List Nat → Client × Option PyErr
  | [] => (c, none)
  | lid :: rest =>
    let p := listenerRun c lid event_data args kwargs
    let q := gatherRun p.1 event_data args kwargs rest
    (q.1, p.2 <|> q.2)

/-- Source `HivenEventHandler.dispatch`: normalize the name, take the bucket as
the snapshot (`if events:` is a truthiness test), build one task per
listener and `gather` them. Also returns the snapshot of listener ids the
dispatch invoked. -/
def dispatch (c : Client) (event_name : String) (event_data : Nat)
    (args : List Nat) (kwargs : List (String × Nat)) :
    Client × List Nat × Option PyErr :=
  match dictGet c.active_listeners (pyReplaceOn event_name) with
  | some (i :: is) =>
    let r := gatherRun c event_data args kwargs (i :: is)
    (r.1, i :: is, r.2)
  | _ => (c, [], none)

/- ### Registration -/

/-- Source `HivenEventHandler.add_new_single_event_listener`: normalize the name,
create the bucket if `dict.get` returns `None`, construct the listener. -/
def add_new_single_event_listener (c : Client) (event_name : String)
    (isCoroFn coroRaises : Bool) : Client × Nat :=
  let en := pyReplaceOn event_name
  let c :=
    if (dictGet c.active_listeners en).isNone then
      { c with active_listeners := dictSet c.active_listeners en [] }
    else c
  newListener c en .single isCoroFn coroRaises

/-- Source `HivenEventHandler.add_new_multi_event_listener`: same shape with a
`MultiDispatchEventListener`; it performs no membership check against the
supported-events list. -/
def add_new_multi_event_listener (c : Client) (event_name : String)
    (isCoroFn coroRaises : Bool) : Client × Nat :=
  let en := pyReplaceOn event_name
  let c :=
    if (dictGet c.active_listeners en).isNone then
      { c with active_listeners := dictSet c.active_listeners en [] }
    else c
  newListener c en .multi isCoroFn coroRaises

/-- Source `HivenEventHandler._events`, verbatim from `__init__`. The source list
literal is missing a comma between `'house_entity_update'` and
`'relationship_update'`, so Python concatenates the two adjacent string
literals into one entry, and `'house_delete'` appears twice. -/
def eventsList : List String :=
  ["connection_start", "init", "ready", "user_update",
   "house_join", "house_remove", "house_update", "house_delete", "house_delete",
   "house_downtime",
   "room_create", "room_update", "room_delete",
   "house_member_join", "house_member_leave", "house_member_enter",
   "house_member_exit", "member_update",
   "house_member_chunk", "batch_house_member_update",
   "house_entity_updaterelationship_update",
   "presence_update",
   "message_create", "message_update", "message_delete",
   "typing_start"]

/-- The `HivenEventHandler.event` decorator: reject non-coroutine
functions, reject decorated names whose normalization is outside
`_events` with `UnknownEventError`, otherwise register through
`add_new_multi_event_listener` (which normalizes a second time). -/
def event (c : Client) (funcName : String) (isCoroFn coroRaises : Bool) :
    Except PyErr (Client × Nat) :=
  if !isCoroFn then .error .expectedAsyncFunction
  else if eventsList.contains (pyReplaceOn funcName) then
    .ok (add_new_multi_event_listener c (pyReplaceOn funcName) isCoroFn coroRaises)
  else .error .unknownEventError

/- ### wait_for

`HivenEventHandler.wait_for` normalizes the name, registers a single
listener (which normalizes again), busy-polls `listener.dispatched` with
`asyncio.sleep(.05)`, and finally returns `listener.args, listener.kwargs`.
The registration step and the value returned once the flag is observed
true are modelled separately; `wait_for_result` is `none` while the poll
would still be sleeping. -/

def wait_for_register (c : Client) (event_name : String)
    (isCoroFn coroRaises : Bool) : Client × Nat :=
  add_new_single_event_listener c (pyReplaceOn event_name) isCoroFn coroRaises

def wait_for_result (c : Client) (lid : Nat) :
    Option (Option (List Nat) × Option (List (String × Nat))) :=
  match storeGet c lid with
  | none => none
  | some l => if l.dispatched then some (l.args, l.kwargs) else none

/- ### Gateway websocket (`openhivenpy/gateway/websocket.py`) -/

/-- Values of `HivenWebSocket.OPCode`. -/
def opEVENT : Nat := 0

def opCONNECTION_START : Nat := 1

def opAUTH : Nat := 2

def opHEARTBEAT : Nat := 3

/-- A decoded inbound frame as `extract_event` sees it:
`(msg.get('op'), msg.get('e'), msg.get('d'))`. The payload is collapsed to
the composite-entity (house) id it carries when the frame is a
`HOUSE_JOIN`, and an opaque number otherwise. -/
structure Frame where
  op : Option Nat
  e : Option String
  d : Option Nat
deriving DecidableEq

/-- Modelled from the spec: the Storage collaborator's
`addOrUpdateComposite` (`client.storage.add_or_update_house`), whose
module is not part of the sources; §6 specifies it as an upsert, so a
known id leaves the house count unchanged and a new one appends. -/
def add_or_update_house (houses : List Nat) (d : Option Nat) : List Nat :=
  match d with
  | none => houses
  | some h => if houses.contains h then houses else houses ++ [h]

/-- The receive loop of `HivenWebSocket.received_init`:
`while len(house_memberships) != len(self.client.storage['houses'])`,
receive one frame; a `HOUSE_JOIN` frame is applied to storage, any other
frame is appended to `additional_events`. `expected` is
`len(house_memberships)`, `houses` the storage's house list, and the
input list carries the frames the transport will deliver; `none` models
the loop still blocked on `wait_for_event` after exhausting them. On exit
it returns the storage, the `additional_events` queue, and the frames
left for the steady-state loop. -/
def receivedInitLoop (expected : Nat) :
    List Nat → List Frame → Option (List Nat × List Frame × List Frame)
  | houses, [] =>
    if houses.length = expected then some (houses, [], []) else none
  | houses, f :: rest =>
    if houses.length = expected then some (houses, [], f :: rest)
    else if f.e = some "HOUSE_JOIN" then
      receivedInitLoop expected (add_or_update_house houses f.d) rest
    else
      (receivedInitLoop expected houses rest).map
        (fun r => (r.1, f :: r.2.1, r.2.2))

/-- The claimed guard, for comparison: the same loop with
`while len(storage['houses']) < len(house_memberships)` instead of `!=`. -/
def receivedInitLoopLT (expected : Nat) :
    List Nat → List Frame → Option (List Nat × List Frame × List Frame)
  | houses, [] =>
    if houses.length < expected then none else some (houses, [], [])
  | houses, f :: rest =>
    if houses.length < expected then
      if f.e = some "HOUSE_JOIN" then
        receivedInitLoopLT expected (add_or_update_house houses f.d) rest
      else
        (receivedInitLoopLT expected houses rest).map
          (fun r => (r.1, f :: r.2.1, r.2.2))
    else some (houses, [], f :: rest)

/-- Source `received_init` after the loop replays every queued frame through
`received_message` (`for event in additional_events: await
self.received_message(event)`) and only then lets `listening_loop`
continue with live frames: the order in which frames reach
`received_message` from the loop's exit onward is the queue followed by
the remaining live frames. -/
def received_init (expected : Nat) (houses : List Nat) (frames : List Frame) :
    Option (List Nat × List Frame) :=
  (receivedInitLoop expected houses frames).map (fun r => (r.1, r.2.1 ++ r.2.2))

/- ### Outbound sends -/

/-- Outcome of `self.socket.send_str(...)`. -/
inductive SendResult
  | ok
  | failed
deriving DecidableEq

/-- Source `HivenWebSocket.send_heartbeat`: any exception from serializing and
writing the heartbeat frame is replaced by `RestartSessionError`. -/
def send_heartbeat (transport : SendResult) : Except PyErr Unit :=
  match transport with
  | .ok => .ok ()
  | .failed => .error .restartSessionError

/-- Source `HivenWebSocket.send_auth`: any exception from serializing and writing
the auth frame is replaced by `SessionCreateError`. -/
def send_auth (transport : SendResult) : Except PyErr Unit :=
  match transport with
  | .ok => .ok ()
  | .failed => .error .sessionCreateError

/- ### KeepAlive -/

/-- Eventual outcome of one spawned heartbeat-send task:
`asyncio.wait_for(self.ws.send_heartbeat(), 30)` completes, raises
`RestartSessionError` from the send, or raises `TimeoutError` past the
bound. -/
inductive HeartbeatOutcome
  | ok
  | sendFailed
  | timedOut
deriving DecidableEq

/-- A task spawned by `KeepAlive.run` via `asyncio.create_task`: the send
wrapped in `asyncio.wait_for` with bound 30. The loop never awaits it, so
its outcome stays inside the task object. -/
structure SpawnedTask where
  timeoutBound : Nat
  outcome : HeartbeatOutcome
deriving DecidableEq

/-- What the keepalive loop observes during one iteration: the sleep
completes normally (`tick`, carrying the eventual outcome of the send
task spawned at the start of the iteration) or is cancelled
(`asyncio.CancelledError`, on which `run` returns). -/
inductive LoopEvent
  | tick (outcome : HeartbeatOutcome)
  | cancelled (outcome : HeartbeatOutcome)
deriving DecidableEq

/-- Source `KeepAlive.run` with `self.ws.open = wsOpen` and `self._active =
active` held fixed over the observed window: while both are true, each
iteration executes `self._task = asyncio.create_task(asyncio.wait_for(
self.ws.send_heartbeat(), 30))` and then sleeps. Returns the spawned
(detached) tasks and the exception, if any, that `run` itself raises:
the `try` block only ever observes `create_task`/`sleep`, so a failure
inside a spawned send task never reaches the `except` clauses. -/
def keepAliveRun (wsOpen active : Bool) :
    List LoopEvent → List SpawnedTask × Option PyErr
  | [] => ([], none)
  | ev :: rest =>
    if wsOpen && active then
      match ev with
      | .cancelled o => ([⟨30, o⟩], none)
      | .tick o =>
        let r := keepAliveRun wsOpen active rest
        (⟨30, o⟩ :: r.1, r.2)
    else ([], none)

/-- The `KeepAlive` object's own fields: `_active` and `_task` (the task
handle, reduced to its cancel-requested flag). -/
structure TaskHandle where
  cancelRequested : Bool
deriving DecidableEq

structure KeepAliveState where
  active : Bool
  task : Option TaskHandle
deriving DecidableEq

/-- Effect of `Task.cancel()`. -/
def taskCancel (_t : TaskHandle) : TaskHandle :=
  { cancelRequested := true }

/-- The effect of `KeepAlive.stop` on the current task object:
`if self._task: if self._task.cancelled(): self._task.cancel()` - the
cancel call is only reached when the task is already cancelled, so a
running in-flight send is left to finish. -/
def stopTaskEffect : Option TaskHandle → Option TaskHandle
  | none => none
  | some t => if t.cancelRequested then some (taskCancel t) else some t

/-- Source `KeepAlive.stop`: apply `stopTaskEffect` to the held task, then set
`self._active = False` and `self._task = None`. Returns the new object
state and the orphaned task object. -/
def stop (s : KeepAliveState) : KeepAliveState × Option TaskHandle :=
  (⟨false, none⟩, stopTaskEffect s.task)

/-- Well-formedness of a dispatch snapshot: the ids are distinct, the
registry bucket for the dispatch key exists, has no duplicates and
contains every snapshot id, and each id resolves to a listener object
registered under that key. This is the state every client reachable
through the registration API is in. -/
def snapOK (c : Client) (k : String) (snap : List Nat) : Prop :=
  snap.Nodup ∧
  (∃ b, dictGet c.active_listeners k = some b ∧ b.Nodup ∧ ∀ lid ∈ snap, lid ∈ b) ∧
  (∀ lid ∈ snap, ∃ l, storeGet c lid = some l ∧ l.event_name = k)

/- ### Basic lemmas about the registry primitives -/

theorem dictGet_dictSet_self (m : List (String × List Nat)) (k : String)
    (v : List Nat) : dictGet (dictSet m k v) k = some v := by
  induction m with
  | nil => simp [dictGet, dictSet]
  | cons p m ih =>
    by_cases h : p.1 = k
    · simp [dictGet, dictSet, h]
    · simpa [dictGet, dictSet, h] using ih

theorem removeFirst_subset (lid : Nat) (b : List Nat) :
    ∀ a ∈ removeFirst lid b, a ∈ b := by
  induction b with
  | nil => simp [removeFirst]
  | cons x xs ih =>
    intro a ha
    by_cases h : x = lid
    · simp only [removeFirst, if_pos h] at ha
      exact List.mem_cons_of_mem _ ha
    · simp only [removeFirst, if_neg h] at ha
      rcases List.mem_cons.mp ha with h' | h'
      · exact h' ▸ List.mem_cons_self _ _
      · exact List.mem_cons_of_mem _ (ih a h')

theorem mem_removeFirst_of_ne (lid a : Nat) (b : List Nat) (hne : a ≠ lid)
    (ha : a ∈ b) : a ∈ removeFirst lid b := by
  induction b with
  | nil => cases ha
  | cons x xs ih =>
    by_cases h : x = lid
    · simp only [removeFirst, if_pos h]
      rcases List.mem_cons.mp ha with h' | h'
      · exact absurd (h' ▸ h) hne
      · exact h'
    · simp only [removeFirst, if_neg h]
      rcases List.mem_cons.mp ha with h' | h'
      · exact h' ▸ List.mem_cons_self _ _
      · exact List.mem_cons_of_mem _ (ih h')

theorem not_mem_removeFirst (lid a : Nat) (b : List Nat) (ha : a ∉ b) :
    a ∉ removeFirst lid b :=
  fun h => ha (removeFirst_subset lid b a h)

theorem nodup_removeFirst (lid : Nat) (b : List Nat) (hb : b.Nodup) :
    (removeFirst lid b).Nodup := by
  induction b with
  | nil => simp [removeFirst]
  | cons x xs ih =>
    rcases List.nodup_cons.mp hb with ⟨hx, hxs⟩
    by_cases h : x = lid
    · simpa [removeFirst, h] using hxs
    · simp only [removeFirst, if_neg h]
      exact List.nodup_cons.mpr ⟨not_mem_removeFirst lid x xs hx, ih hxs⟩

theorem not_mem_removeFirst_self (lid : Nat) (b : List Nat) (hb : b.Nodup) :
    lid ∉ removeFirst lid b := by
  induction b with
  | nil => simp [removeFirst]
  | cons x xs ih =>
    rcases List.nodup_cons.mp hb with ⟨hx, hxs⟩
    by_cases h : x = lid
    · simpa [removeFirst, h] using h ▸ hx
    · simp only [removeFirst, if_neg h]
      intro hmem
      rcases List.mem_cons.mp hmem with h' | h'
      · exact h (h'.symm)
      · exact ih hxs h'

theorem pyListRemove_of_mem (lid : Nat) (b : List Nat) (h : lid ∈ b) :
    pyListRemove lid b = .ok (removeFirst lid b) := by
  induction b with
  | nil => cases h
  | cons x xs ih =>
    by_cases hx : x = lid
    · simp [pyListRemove, removeFirst, hx]
    · have hxs : lid ∈ xs := by
        rcases List.mem_cons.mp h with h' | h'
        · exact absurd h'.symm hx
        · exact h'
      simp [pyListRemove, removeFirst, hx, ih hxs, Except.map]

theorem find?_update_ne (s : List Listener) (l : Listener) (j : Nat)
    (h : j ≠ l.id) :
    (s.map (fun x => if x.id = l.id then l else x)).find? (fun x => x.id = j) =
      s.find? (fun x => x.id = j) := by
  induction s with
  | nil => rfl
  | cons x s ih =>
    rw [List.map_cons]
    by_cases hx : x.id = l.id
    · have h1 : ¬ l.id = j := fun he => h he.symm
      have h2 : ¬ x.id = j := by rw [hx]; exact h1
      rw [if_pos hx, List.find?_cons_of_neg _ (by simpa using h1),
        List.find?_cons_of_neg _ (by simpa using h2), ih]
    · rw [if_neg hx]
      by_cases hj : x.id = j
      · rw [List.find?_cons_of_pos _ (by simpa using hj),
          List.find?_cons_of_pos _ (by simpa using hj)]
      · rw [List.find?_cons_of_neg _ (by simpa using hj),
          List.find?_cons_of_neg _ (by simpa using hj), ih]

theorem find?_update_self (s : List Listener) (l l' : Listener) (j : Nat)
    (hfind : s.find? (fun x => x.id = j) = some l) (hid : l'.id = l.id) :
    (s.map (fun x => if x.id = l'.id then l' else x)).find? (fun x => x.id = j) =
      some l' := by
  induction s with
  | nil => simp [List.find?] at hfind
  | cons x s ih =>
    have hlj : l.id = j := by
      have := List.find?_some hfind
      simpa using this
    by_cases hj : x.id = j
    · have hx : x = l := by
        simp only [List.find?, hj] at hfind
        simpa using hfind
      have hx' : x.id = l'.id := by rw [hx, hid]
      simp [List.find?, hx', hid, hlj, hj]
    · have hx' : ¬ x.id = l'.id := by
        intro he
        exact hj (by rw [he, hid, hlj])
      have hrec : s.find? (fun x => x.id = j) = some l := by
        simpa [List.find?, hj] using hfind
      simp [List.find?, hx', hj, ih hrec]

theorem storeGet_eq_id (c : Client) (lid : Nat) (l : Listener)
    (h : storeGet c lid = some l) : l.id = lid := by
  have := List.find?_some h
  simpa using this

theorem singleDispatchCore_spec (l : Listener) (d : Nat) (as : List Nat)
    (kw : List (String × Nat)) :
    (singleDispatchCore l d as kw).1 =
      { l with event_data := some d,
               args := if l.isCoroFn then some as else l.args,
               kwargs := if l.isCoroFn then some kw else l.kwargs,
               dispatched := true } ∧
    (singleDispatchCore l d as kw).2 =
      (if l.isCoroFn && l.coroRaises then [logMsg l.event_name] else []) := by
  cases hcf : l.isCoroFn <;> cases hcr : l.coroRaises <;>
    simp [singleDispatchCore, hcf, hcr]

theorem listenerRun_step (c : Client) (k : String) (lid : Nat) (rest : List Nat)
    (d : Nat) (as : List Nat) (kw : List (String × Nat))
    (h : snapOK c k (lid :: rest)) :
    ∃ c', listenerRun c lid d as kw = (c', none) ∧
      snapOK c' k rest ∧
      (∀ j, j ≠ lid → storeGet c' j = storeGet c j) ∧
      (∃ t, c'.log = c.log ++ t) ∧
      (∀ l, storeGet c lid = some l → l.isCoroFn = true → l.coroRaises = true →
          logMsg l.event_name ∈ c'.log) ∧
      (∀ l, storeGet c lid = some l → l.kind = .single →
          (∃ l', storeGet c' lid = some l' ∧ l'.dispatched = true) ∧
          (∀ b', dictGet c'.active_listeners k = some b' → lid ∉ b')) ∧
      (∀ x, (∀ b, dictGet c.active_listeners k = some b → x ∉ b) →
          (∀ b', dictGet c'.active_listeners k = some b' → x ∉ b')) := by
  obtain ⟨hnd, ⟨b, hbk, hbnd, hmem⟩, hstore⟩ := h
  obtain ⟨hlidrest, hndrest⟩ := List.nodup_cons.mp hnd
  obtain ⟨l, hl, hlk⟩ := hstore lid (List.mem_cons_self _ _)
  have hid : l.id = lid := storeGet_eq_id c lid l hl
  cases hkind : l.kind with
  | multi =>
    by_cases hr : (l.isCoroFn && l.coroRaises) = true
    · refine ⟨{ c with log := c.log ++ [logMsg l.event_name] }, ?_, ?_, ?_, ?_, ?_, ?_, ?_⟩
      · simp [listenerRun, multiDispatch, hl, hkind, hr]
      · exact ⟨hndrest, ⟨b, hbk, hbnd, fun j hj => hmem j (List.mem_cons_of_mem _ hj)⟩,
          fun j hj => hstore j (List.mem_cons_of_mem _ hj)⟩
      · intro j _; rfl
      · exact ⟨[logMsg l.event_name], rfl⟩
      · intro l0 hl0 _ _
        have : l0 = l := by rw [hl0] at hl; exact Option.some.inj hl
        subst this
        simp
      · intro l0 hl0 hks
        have : l0 = l := by rw [hl0] at hl; exact Option.some.inj hl
        subst this
        rw [hkind] at hks; cases hks
      · intro x hx b' hb'; exact hx b' hb'
    · refine ⟨c, ?_, ?_, ?_, ?_, ?_, ?_, ?_⟩
      · simp [listenerRun, multiDispatch, hl, hkind, hr]
      · exact ⟨hndrest, ⟨b, hbk, hbnd, fun j hj => hmem j (List.mem_cons_of_mem _ hj)⟩,
          fun j hj => hstore j (List.mem_cons_of_mem _ hj)⟩
      · intro j _; rfl
      · exact ⟨[], by simp⟩
      · intro l0 hl0 hcf hcr
        have : l0 = l := by rw [hl0] at hl; exact Option.some.inj hl
        subst this
        rw [hcf, hcr] at hr; simp at hr
      · intro l0 hl0 hks
        have : l0 = l := by rw [hl0] at hl; exact Option.some.inj hl
        subst this
        rw [hkind] at hks; cases hks
      · intro x hx b' hb'; exact hx b' hb'
  | single =>
    have hlidb : lid ∈ b := hmem lid (List.mem_cons_self _ _)
    obtain ⟨i, is, rfl⟩ : ∃ i is, b = i :: is := by
      cases b with
      | nil => cases hlidb
      | cons i is => exact ⟨i, is, rfl⟩
    have hspec := singleDispatchCore_spec l d as kw
    have hl'id : (singleDispatchCore l d as kw).1.id = l.id := by rw [hspec.1]
    have hl'en : (singleDispatchCore l d as kw).1.event_name = l.event_name := by
      rw [hspec.1]
    have hl'disp : (singleDispatchCore l d as kw).1.dispatched = true := by
      rw [hspec.1]
    refine ⟨{ store := c.store.map
                (fun x => if x.id = (singleDispatchCore l d as kw).1.id
                  then (singleDispatchCore l d as kw).1 else x),
              active_listeners := dictSet c.active_listeners k
                (removeFirst lid (i :: is)),
              nextId := c.nextId,
              log := c.log ++ (singleDispatchCore l d as kw).2 }, ?_, ?_, ?_, ?_, ?_, ?_, ?_⟩
    · simp only [listenerRun, hl, hkind, singleDispatch, storeSet, remove_listener,
        hl'en, hlk, hl'id, hid, hbk, pyListRemove_of_mem lid (i :: is) hlidb,
        Except.map]
    · refine ⟨hndrest, ⟨removeFirst lid (i :: is), dictGet_dictSet_self _ _ _,
        nodup_removeFirst _ _ hbnd, ?_⟩, ?_⟩
      · intro j hj
        have hjne : j ≠ lid := fun he => hlidrest (he ▸ hj)
        exact mem_removeFirst_of_ne lid j _ hjne (hmem j (List.mem_cons_of_mem _ hj))
      · intro j hj
        obtain ⟨lj, hlj, hljk⟩ := hstore j (List.mem_cons_of_mem _ hj)
        have hjne : j ≠ (singleDispatchCore l d as kw).1.id := by
          rw [hl'id, hid]
          exact fun he => hlidrest (he ▸ hj)
        exact ⟨lj, by rw [← hlj]; exact find?_update_ne c.store _ j hjne, hljk⟩
    · intro j hj
      have hjne : j ≠ (singleDispatchCore l d as kw).1.id := by
        rw [hl'id, hid]; exact hj
      exact find?_update_ne c.store _ j hjne
    · exact ⟨(singleDispatchCore l d as kw).2, rfl⟩
    · intro l0 hl0 hcf hcr
      have hll : l0 = l := by rw [hl0] at hl; exact Option.some.inj hl
      subst hll
      simp [hspec.2, hcf, hcr]
    · intro l0 hl0 _
      have hll : l0 = l := by rw [hl0] at hl; exact Option.some.inj hl
      subst hll
      constructor
      · exact ⟨(singleDispatchCore l0 d as kw).1,
          find?_update_self c.store l0 _ lid hl hl'id, hl'disp⟩
      · intro b' hb'
        rw [dictGet_dictSet_self] at hb'
        have : removeFirst lid (i :: is) = b' := Option.some.inj hb'
        rw [← this]
        exact not_mem_removeFirst_self lid _ hbnd
    · intro x hx b' hb'
      rw [dictGet_dictSet_self] at hb'
      have : removeFirst lid (i :: is) = b' := Option.some.inj hb'
      rw [← this]
      exact not_mem_removeFirst lid x _ (hx _ hbk)

theorem gatherRun_ok (c : Client) (k : String) (snap : List Nat)
    (d : Nat) (as : List Nat) (kw : List (String × Nat))
    (h : snapOK c k snap) :
    ∃ c', gatherRun c d as kw snap = (c', none) ∧
      (∃ t, c'.log = c.log ++ t) ∧
      (∀ j, j ∉ snap → storeGet c' j = storeGet c j) ∧
      (∀ lid ∈ snap, ∀ l, storeGet c lid = some l → l.isCoroFn = true →
          l.coroRaises = true → logMsg l.event_name ∈ c'.log) ∧
      (∀ lid ∈ snap, ∀ l, storeGet c lid = some l → l.kind = .single →
          (∃ l', storeGet c' lid = some l' ∧ l'.dispatched = true) ∧
          (∀ b', dictGet c'.active_listeners k = some b' → lid ∉ b')) ∧
      (∀ x, (∀ b, dictGet c.active_listeners k = some b → x ∉ b) →
          (∀ b', dictGet c'.active_listeners k = some b' → x ∉ b')) := by
  induction snap generalizing c with
  | nil =>
    exact ⟨c, rfl, ⟨[], by simp⟩, fun j _ => rfl, by simp, by simp, fun x hx => hx⟩
  | cons lid rest ih =>
    have hlidrest : lid ∉ rest := (List.nodup_cons.mp h.1).1
    obtain ⟨c1, hrun, hsnap1, hpres1, ⟨t1, hlog1⟩, hlogger1, hsingle1, hnm1⟩ :=
      listenerRun_step c k lid rest d as kw h
    obtain ⟨c2, hrun2, ⟨t2, hlog2⟩, hpres2, hlogger2, hsingle2, hnm2⟩ := ih c1 hsnap1
    refine ⟨c2, ?_, ?_, ?_, ?_, ?_, ?_⟩
    · simp [gatherRun, hrun, hrun2]
    · exact ⟨t1 ++ t2, by rw [hlog2, hlog1, List.append_assoc]⟩
    · intro j hj
      have hj1 : j ≠ lid := fun he => hj (he ▸ List.mem_cons_self _ _)
      have hj2 : j ∉ rest := fun hm => hj (List.mem_cons_of_mem _ hm)
      rw [hpres2 j hj2, hpres1 j hj1]
    · intro j hjmem l hl hcf hcr
      rcases List.mem_cons.mp hjmem with rfl | hjr
      · have h1 : logMsg l.event_name ∈ c1.log := hlogger1 l hl hcf hcr
        rw [hlog2]
        exact List.mem_append_left _ h1
      · have hne : j ≠ lid := fun he => hlidrest (he ▸ hjr)
        exact hlogger2 j hjr l (by rw [hpres1 j hne]; exact hl) hcf hcr
    · intro j hjmem l hl hks
      rcases List.mem_cons.mp hjmem with rfl | hjr
      · obtain ⟨⟨l1, hl1, hl1d⟩, hnb1⟩ := hsingle1 l hl hks
        constructor
        · exact ⟨l1, by rw [hpres2 j hlidrest]; exact hl1, hl1d⟩
        · exact hnm2 j hnb1
      · have hne : j ≠ lid := fun he => hlidrest (he ▸ hjr)
        exact hsingle2 j hjr l (by rw [hpres1 j hne]; exact hl) hks
    · intro x hx
      exact hnm2 x (hnm1 x hx)

/-- C2: an exception raised by one listener's callback during a dispatch is
caught and logged with the originating event name inside that listener's own
dispatch; every sibling listener in the snapshot is still invoked and the
dispatch call itself completes without propagating any exception. -/
theorem dispatch_isolates_listener_failures
    (c : Client) (en : String) (d : Nat) (as : List Nat) (kw : List (String × Nat))
    (hwf : ∀ b, dictGet c.active_listeners (pyReplaceOn en) = some b →
      b.Nodup ∧ ∀ lid ∈ b, ∃ l, storeGet c lid = some l ∧
        l.event_name = pyReplaceOn en) :
    (dispatch c en d as kw).2.2 = none ∧
    ∀ b, dictGet c.active_listeners (pyReplaceOn en) = some b →
      (dispatch c en d as kw).2.1 = b ∧
      ∀ lid ∈ b, ∀ l, storeGet c lid = some l → l.isCoroFn = true →
        l.coroRaises = true →
        logMsg l.event_name ∈ (dispatch c en d as kw).1.log := by
  cases hbk : dictGet c.active_listeners (pyReplaceOn en) with
  | none =>
    constructor
    · simp [dispatch, hbk]
    · intro b hb
      cases hb
  | some b =>
    cases b with
    | nil =>
      constructor
      · simp [dispatch, hbk]
      · intro b hb
        have hbe : ([] : List Nat) = b := Option.some.inj hb
        subst hbe
        exact ⟨by simp [dispatch, hbk], by simp⟩
    | cons i is =>
      obtain ⟨hnd, hst⟩ := hwf (i :: is) hbk
      have hsnap : snapOK c (pyReplaceOn en) (i :: is) :=
        ⟨hnd, ⟨i :: is, hbk, hnd, fun j hj => hj⟩, hst⟩
      obtain ⟨c', hrun, _, _, hlogger, _, _⟩ :=
        gatherRun_ok c (pyReplaceOn en) (i :: is) d as kw hsnap
      constructor
      · simp [dispatch, hbk, hrun]
      · intro b hb
        have hbe : (i :: is) = b := Option.some.inj hb
        subst hbe
        refine ⟨by simp [dispatch, hbk, hrun], ?_⟩
        intro lid hlid l hl hcf hcr
        have hm := hlogger lid hlid l hl hcf hcr
        simpa [dispatch, hbk, hrun] using hm

/-- Witness for `dispatch_isolates_listener_failures`: two persistent
listeners on `ready`, the first of which raises; the dispatch reports no
exception and the failure is logged with the event name. -/
theorem dispatch_isolates_listener_failures_witness :
    (dispatch (add_new_multi_event_listener
        (add_new_multi_event_listener clientInit "ready" true true).1
        "ready" true false).1 "ready" 5 [1] []).2.2 = none ∧
    logMsg "ready" ∈ (dispatch (add_new_multi_event_listener
        (add_new_multi_event_listener clientInit "ready" true true).1
        "ready" true false).1 "ready" 5 [1] []).1.log := by
  have hwf : ∀ b, dictGet (add_new_multi_event_listener
      (add_new_multi_event_listener clientInit "ready" true true).1
      "ready" true false).1.active_listeners (pyReplaceOn "ready") = some b →
      b.Nodup ∧ ∀ lid ∈ b, ∃ l, storeGet (add_new_multi_event_listener
        (add_new_multi_event_listener clientInit "ready" true true).1
        "ready" true false).1 lid = some l ∧
        l.event_name = pyReplaceOn "ready" := by
    intro b hb
    have he : dictGet (add_new_multi_event_listener
        (add_new_multi_event_listener clientInit "ready" true true).1
        "ready" true false).1.active_listeners (pyReplaceOn "ready") =
        some [0, 1] := by decide
    rw [he] at hb
    obtain rfl : [0, 1] = b := Option.some.inj hb
    refine ⟨by decide, ?_⟩
    intro lid hlid
    fin_cases hlid
    · exact ⟨{ id := 0, event_name := "ready", kind := .multi,
               isCoroFn := true, coroRaises := true }, by decide, by decide⟩
    · exact ⟨{ id := 1, event_name := "ready", kind := .multi,
               isCoroFn := true, coroRaises := false }, by decide, by decide⟩
  have h := dispatch_isolates_listener_failures (add_new_multi_event_listener
      (add_new_multi_event_listener clientInit "ready" true true).1
      "ready" true false).1 "ready" 5 [1] [] hwf
  refine ⟨h.1, ?_⟩
  have h2 := (h.2 [0, 1] (by decide)).2 0 (by decide)
    { id := 0, event_name := "ready", kind := .multi,
          isCoroFn := true, coroRaises := true } (by decide) rfl rfl
  exact h2

/-- C4: after a dispatch of an event, a previously registered single
(one-shot) listener for it is absent from the registry bucket and its
`dispatched` flag is true, for every dispatch outcome - in particular when
its callback raises. -/
theorem single_listener_fires_once
    (c : Client) (en : String) (d : Nat) (as : List Nat) (kw : List (String × Nat))
    (lid : Nat) (l : Listener)
    (hl : storeGet c lid = some l) (hkind : l.kind = .single)
    (hmem : ∃ b, dictGet c.active_listeners (pyReplaceOn en) = some b ∧ lid ∈ b)
    (hwf : ∀ b, dictGet c.active_listeners (pyReplaceOn en) = some b →
      b.Nodup ∧ ∀ j ∈ b, ∃ l', storeGet c j = some l' ∧
        l'.event_name = pyReplaceOn en) :
    (∃ l', storeGet (dispatch c en d as kw).1 lid = some l' ∧
      l'.dispatched = true) ∧
    ∀ b', dictGet (dispatch c en d as kw).1.active_listeners (pyReplaceOn en) =
        some b' → lid ∉ b' := by
  obtain ⟨b, hbk, hlidb⟩ := hmem
  cases b with
  | nil => cases hlidb
  | cons i is =>
    obtain ⟨hnd, hst⟩ := hwf _ hbk
    have hsnap : snapOK c (pyReplaceOn en) (i :: is) :=
      ⟨hnd, ⟨_, hbk, hnd, fun j hj => hj⟩, hst⟩
    obtain ⟨c', hrun, _, _, _, hsingle, _⟩ :=
      gatherRun_ok c (pyReplaceOn en) (i :: is) d as kw hsnap
    obtain ⟨⟨l', hl', hl'd⟩, hnb⟩ := hsingle lid hlidb l hl hkind
    constructor
    · exact ⟨l', by simpa [dispatch, hbk, hrun] using hl', hl'd⟩
    · intro b' hb'
      have hcb : dictGet c'.active_listeners (pyReplaceOn en) = some b' := by
        simpa [dispatch, hbk, hrun] using hb'
      exact hnb b' hcb

/-- Witness for `single_listener_fires_once`: a one-shot listener on
`ready` whose callback raises; after the dispatch its flag is set and the
bucket no longer holds it. -/
theorem single_listener_fires_once_witness :
    (∃ l', storeGet (dispatch (add_new_single_event_listener clientInit
      "ready" true true).1 "ready" 5 [] []).1 0 = some l' ∧
      l'.dispatched = true) ∧
    ∀ b', dictGet (dispatch (add_new_single_event_listener clientInit
      "ready" true true).1 "ready" 5 [] []).1.active_listeners
        (pyReplaceOn "ready") = some b' → 0 ∉ b' := by
  have hwf : ∀ b, dictGet (add_new_single_event_listener clientInit
      "ready" true true).1.active_listeners (pyReplaceOn "ready") = some b →
      b.Nodup ∧ ∀ j ∈ b, ∃ l', storeGet (add_new_single_event_listener clientInit
        "ready" true true).1 j = some l' ∧
        l'.event_name = pyReplaceOn "ready" := by
    intro b hb
    have he : dictGet (add_new_single_event_listener clientInit
        "ready" true true).1.active_listeners (pyReplaceOn "ready") =
        some [0] := by decide
    rw [he] at hb
    obtain rfl : [0] = b := Option.some.inj hb
    refine ⟨by decide, ?_⟩
    intro j hj
    fin_cases hj
    exact ⟨{ id := 0, event_name := "ready", kind := .single,
             isCoroFn := true, coroRaises := true }, by decide, by decide⟩
  exact single_listener_fires_once (add_new_single_event_listener clientInit
      "ready" true true).1 "ready" 5 [] [] 0
    { id := 0, event_name := "ready", kind := .single,
          isCoroFn := true, coroRaises := true }
    (by decide) (by decide) ⟨[0], by decide, by decide⟩ hwf

/-- The bucket created by `add_new_multi_event_listener` always receives
the new listener - the function performs no validation of the event name
against `_events`. -/
theorem add_new_multi_registers (c : Client) (name : String)
    (cf cr : Bool) :
    ∃ b, dictGet (add_new_multi_event_listener c name cf cr).1.active_listeners
      (pyReplaceOn name) = some b ∧
      (add_new_multi_event_listener c name cf cr).2 ∈ b := by
  cases hbk : dictGet c.active_listeners (pyReplaceOn name) with
  | none =>
    refine ⟨[c.nextId], ?_, by simp [add_new_multi_event_listener, newListener, hbk]⟩
    simp [add_new_multi_event_listener, newListener, add_listener, hbk,
      dictGet_dictSet_self]
  | some b =>
    cases b with
    | nil =>
      refine ⟨[c.nextId], ?_, by simp [add_new_multi_event_listener, newListener, hbk]⟩
      simp [add_new_multi_event_listener, newListener, add_listener, hbk,
        dictGet_dictSet_self]
    | cons i is =>
      refine ⟨(i :: is) ++ [c.nextId], ?_, by simp [add_new_multi_event_listener, newListener, hbk]⟩
      simp [add_new_multi_event_listener, newListener, add_listener, hbk,
        dictGet_dictSet_self]

/-- C5 counterexample: `totally_bogus` is outside the supported-events
list, yet `add_new_multi_event_listener` registers a listener for it and
raises nothing - the claimed `UnknownEventKind` failure does not happen on
this path. -/
theorem add_new_multi_no_validation_counterexample :
    ("totally_bogus" ∈ eventsList → False) ∧
    dictGet (add_new_multi_event_listener clientInit "totally_bogus"
      true false).1.active_listeners "totally_bogus" =
      some [(add_new_multi_event_listener clientInit "totally_bogus"
        true false).2] := by decide

/-- C5 amended: only the `event` decorator validates the name against the
fixed `_events` list, failing with `UnknownEventError` and adding nothing;
`add_new_multi_event_listener` itself performs no validation and always
registers the listener under the normalized name. -/
theorem event_decorator_validates (c : Client) (name : String) (cr : Bool)
    (hno : pyReplaceOn name ∉ eventsList) :
    event c name true cr = .error .unknownEventError ∧
    ∀ cf' cr', ∃ b,
      dictGet (add_new_multi_event_listener c name cf' cr').1.active_listeners
        (pyReplaceOn name) = some b ∧
      (add_new_multi_event_listener c name cf' cr').2 ∈ b := by
  constructor
  · simp [event, hno]
  · intro cf' cr'
    exact add_new_multi_registers c name cf' cr'

/-- Witness for `event_decorator_validates` at the unsupported name
`bogus`. -/
theorem event_decorator_validates_witness :
    event clientInit "bogus" true false = .error .unknownEventError ∧
    ∃ b, dictGet (add_new_multi_event_listener clientInit "bogus" true
      false).1.active_listeners (pyReplaceOn "bogus") = some b ∧
      (add_new_multi_event_listener clientInit "bogus" true false).2 ∈ b := by
  have h := event_decorator_validates clientInit "bogus" false (by decide)
  exact ⟨h.1, h.2 true false⟩

/-- C10: a listener registered under name `a` is invoked by a dispatch of
name `b` exactly when `a.replace('on_','')` equals `b.replace('on_','')`;
the shared normalization removes every occurrence of the substring `on_`,
not only a leading prefix (`house_on_join ↦ house_join`, and even the
interior of `connection_start` is rewritten). -/
theorem dispatch_name_normalization (a b : String) (cf cr : Bool)
    (d : Nat) (as : List Nat) (kw : List (String × Nat)) :
    ((add_new_multi_event_listener clientInit a cf cr).2 ∈
      (dispatch (add_new_multi_event_listener clientInit a cf cr).1
        b d as kw).2.1 ↔
      pyReplaceOn a = pyReplaceOn b) ∧
    pyReplaceOn "house_on_join" = "house_join" ∧
    pyReplaceOn "connection_start" = "connectistart" := by
  refine ⟨?_, by decide, by decide⟩
  have hreg : (add_new_multi_event_listener clientInit a cf cr).1.active_listeners
      = [(pyReplaceOn a, [0])] := by
    simp [add_new_multi_event_listener, clientInit, newListener, add_listener,
      dictGet, dictSet]
  have hid : (add_new_multi_event_listener clientInit a cf cr).2 = 0 := by
    simp [add_new_multi_event_listener, clientInit, newListener, dictGet, dictSet]
  rw [hid]
  by_cases h : pyReplaceOn a = pyReplaceOn b
  · refine ⟨fun _ => h, fun _ => ?_⟩
    simp [dispatch, hreg, dictGet, h]
  · refine ⟨fun hmem => ?_, fun he => absurd he h⟩
    exfalso
    have hne : ¬ pyReplaceOn a = pyReplaceOn b := h
    simp [dispatch, hreg, dictGet, hne] at hmem

/-- C9 counterexample: a `wait_for` on `ready` with no extra coroutine,
fired by a dispatch with payload `42` and arguments `[7]`, returns
`(None, None)`: neither the recorded payload nor the dispatch arguments. -/
theorem wait_for_counterexample :
    wait_for_result (dispatch (wait_for_register clientInit "ready"
        false false).1 "ready" 42 [7] [("k", 3)]).1
      (wait_for_register clientInit "ready" false false).2 =
      some (none, none) ∧
    (storeGet (dispatch (wait_for_register clientInit "ready"
        false false).1 "ready" 42 [7] [("k", 3)]).1
      (wait_for_register clientInit "ready" false false).2).map
      (fun l => l.event_data) = some (some 42) := by decide

/-- C9 amended: `wait_for` registers a one-shot listener and returns only
once its `dispatched` flag is true; the value returned is the pair
`(listener.args, listener.kwargs)` - the dispatch's extra arguments when a
coroutine callback was supplied and `None` otherwise - while the payload
is recorded in the listener's `event_data` but never returned. -/
theorem wait_for_returns_recorded_args (e : String) (cf cr : Bool)
    (d : Nat) (as : List Nat) (kw : List (String × Nat)) :
    wait_for_result (wait_for_register clientInit e cf cr).1
      (wait_for_register clientInit e cf cr).2 = none ∧
    wait_for_result (dispatch (wait_for_register clientInit e cf cr).1
        (pyReplaceOn e) d as kw).1
      (wait_for_register clientInit e cf cr).2 =
      some (if cf then some as else none, if cf then some kw else none) ∧
    (storeGet (dispatch (wait_for_register clientInit e cf cr).1
        (pyReplaceOn e) d as kw).1
      (wait_for_register clientInit e cf cr).2).map
      (fun l => l.event_data) = some (some d) := by
  cases cf <;> cases cr <;>
    simp [wait_for_register, wait_for_result, add_new_single_event_listener,
      newListener, add_listener, clientInit, dictGet, dictSet, dispatch,
      gatherRun, listenerRun, singleDispatch, singleDispatchCore, storeSet,
      storeGet, remove_listener, pyListRemove, Except.map]

/-- C1: every frame the handshake loop consumes that is not a `HOUSE_JOIN`
sync frame is appended to the spillover queue, so the queue is exactly the
non-sync frames in original receipt order (FIFO); after completion the
queued frames are replayed through `received_message` before any of the
remaining live frames. -/
theorem received_init_spillover_fifo (expected : Nat) (houses : List Nat)
    (frames : List Frame) (h : List Nat) (q rem : List Frame)
    (hrun : receivedInitLoop expected houses frames = some (h, q, rem)) :
    (∃ consumed, frames = consumed ++ rem ∧
      q = consumed.filter (fun f => decide (f.e ≠ some "HOUSE_JOIN"))) ∧
    received_init expected houses frames = some (h, q ++ rem) := by
  refine ⟨?_, by simp [received_init, hrun]⟩
  induction frames generalizing houses h q rem with
  | nil =>
    by_cases hc : houses.length = expected
    · simp [receivedInitLoop, hc] at hrun
      obtain ⟨rfl, rfl, rfl⟩ := hrun
      exact ⟨[], rfl, rfl⟩
    · simp [receivedInitLoop, hc] at hrun
  | cons f rest ih =>
    by_cases hc : houses.length = expected
    · simp [receivedInitLoop, hc] at hrun
      obtain ⟨rfl, rfl, rfl⟩ := hrun
      exact ⟨[], rfl, rfl⟩
    · by_cases hf : f.e = some "HOUSE_JOIN"
      · simp only [receivedInitLoop, if_neg hc, if_pos hf] at hrun
        obtain ⟨consumed, hcons, hq⟩ := ih _ _ _ _ hrun
        refine ⟨f :: consumed, by rw [hcons]; rfl, ?_⟩
        simp [List.filter, hf, hq]
      · simp only [receivedInitLoop, if_neg hc, if_neg hf] at hrun
        cases hrec : receivedInitLoop expected houses rest with
        | none => rw [hrec] at hrun; cases hrun
        | some r =>
          obtain ⟨h', q', rem'⟩ := r
          rw [hrec] at hrun
          simp only [Option.map, Option.some.injEq, Prod.mk.injEq] at hrun
          obtain ⟨rfl, rfl, rfl⟩ := hrun
          obtain ⟨consumed, hcons, hq⟩ := ih _ _ _ _ hrec
          refine ⟨f :: consumed, by rw [hcons]; rfl, ?_⟩
          simp [List.filter, hf, hq]

/-- Witness for `received_init_spillover_fifo`: one expected house, a
`MESSAGE_CREATE` spillover frame, the `HOUSE_JOIN` completing the sync,
then a live `TYPING_START` frame left for the steady-state loop. -/
theorem received_init_spillover_fifo_witness :
    (∃ consumed, [(⟨some 0, some "MESSAGE_CREATE", some 9⟩ : Frame),
        ⟨some 0, some "HOUSE_JOIN", some 5⟩,
        ⟨some 0, some "TYPING_START", some 1⟩] =
      consumed ++ [⟨some 0, some "TYPING_START", some 1⟩] ∧
      [(⟨some 0, some "MESSAGE_CREATE", some 9⟩ : Frame)] =
        consumed.filter (fun f => decide (f.e ≠ some "HOUSE_JOIN"))) ∧
    received_init 1 [] [⟨some 0, some "MESSAGE_CREATE", some 9⟩,
        ⟨some 0, some "HOUSE_JOIN", some 5⟩,
        ⟨some 0, some "TYPING_START", some 1⟩] =
      some ([5], [(⟨some 0, some "MESSAGE_CREATE", some 9⟩ : Frame)] ++
        [⟨some 0, some "TYPING_START", some 1⟩]) :=
  received_init_spillover_fifo 1 []
    [⟨some 0, some "MESSAGE_CREATE", some 9⟩,
     ⟨some 0, some "HOUSE_JOIN", some 5⟩,
     ⟨some 0, some "TYPING_START", some 1⟩]
    [5] [⟨some 0, some "MESSAGE_CREATE", some 9⟩]
    [⟨some 0, some "TYPING_START", some 1⟩] (by decide)

/-- C6 counterexample: with zero expected memberships and one house
already in storage, the local count is not less than the expected count,
yet the source loop does not exit - its guard is `!=`, so it keeps
receiving (consuming frames, and blocking when none arrive), where the
claimed `<` guard would stop immediately. -/
theorem received_init_guard_counterexample :
    receivedInitLoop 0 [1] [] = none ∧
    receivedInitLoopLT 0 [1] [] = some ([1], [], []) ∧
    receivedInitLoop 0 [1] [⟨some 0, some "HOUSE_JOIN", some 2⟩] = none ∧
    receivedInitLoopLT 0 [1] [⟨some 0, some "HOUSE_JOIN", some 2⟩] =
      some ([1], [], [⟨some 0, some "HOUSE_JOIN", some 2⟩]) := by decide

/-- C6 amended: the loop keeps receiving exactly while the local house
count differs from the expected count (`!=`, not `<`): it exits at once
when they are equal, blocks on an empty stream while they differ, always
exits with the counts equal, and applies each `HOUSE_JOIN` to storage
before re-checking the guard. -/
theorem received_init_guard_amended (expected : Nat) (houses : List Nat)
    (frames : List Frame) :
    (houses.length = expected →
      receivedInitLoop expected houses frames = some (houses, [], frames)) ∧
    (houses.length ≠ expected → frames = [] →
      receivedInitLoop expected houses frames = none) ∧
    (∀ h q rem, receivedInitLoop expected houses frames = some (h, q, rem) →
      h.length = expected) ∧
    (∀ f rest, frames = f :: rest → houses.length ≠ expected →
      f.e = some "HOUSE_JOIN" →
      receivedInitLoop expected houses frames =
        receivedInitLoop expected (add_or_update_house houses f.d) rest) := by
  refine ⟨?_, ?_, ?_, ?_⟩
  · intro hc
    cases frames <;> simp [receivedInitLoop, hc]
  · intro hc hf
    subst hf
    simp [receivedInitLoop, hc]
  · induction frames generalizing houses with
    | nil =>
      intro h q rem hrun
      by_cases hc : houses.length = expected
      · simp [receivedInitLoop, hc] at hrun
        obtain ⟨rfl, -, -⟩ := hrun
        exact hc
      · simp [receivedInitLoop, hc] at hrun
    | cons f rest ih =>
      intro h q rem hrun
      by_cases hc : houses.length = expected
      · simp [receivedInitLoop, hc] at hrun
        obtain ⟨rfl, -, -⟩ := hrun
        exact hc
      · by_cases hf : f.e = some "HOUSE_JOIN"
        · simp only [receivedInitLoop, if_neg hc, if_pos hf] at hrun
          exact ih _ h q rem hrun
        · simp only [receivedInitLoop, if_neg hc, if_neg hf] at hrun
          cases hrec : receivedInitLoop expected houses rest with
          | none => rw [hrec] at hrun; cases hrun
          | some r =>
            obtain ⟨h', q', rem'⟩ := r
            rw [hrec] at hrun
            simp only [Option.map, Option.some.injEq, Prod.mk.injEq] at hrun
            obtain ⟨rfl, -, -⟩ := hrun
            exact ih _ h' q' rem' hrec
  · intro f rest hfr hc hf
    subst hfr
    simp [receivedInitLoop, hc, hf]

/-- Witness for `received_init_guard_amended`: each conjunct exercised at
a concrete state of one expected house. -/
theorem received_init_guard_amended_witness :
    receivedInitLoop 1 [2] [] = some ([2], [], []) ∧
    receivedInitLoop 1 [] [] = none ∧
    ([5] : List Nat).length = 1 ∧
    receivedInitLoop 1 [] [⟨some 0, some "HOUSE_JOIN", some 5⟩] =
      receivedInitLoop 1 (add_or_update_house [] (some 5)) [] :=
  ⟨(received_init_guard_amended 1 [2] []).1 (by decide),
   (received_init_guard_amended 1 [] []).2.1 (by decide) rfl,
   (received_init_guard_amended 1 [] [⟨some 0, some "HOUSE_JOIN", some 5⟩]).2.2.1
     [5] [] [] (by decide),
   (received_init_guard_amended 1 [] [⟨some 0, some "HOUSE_JOIN", some 5⟩]).2.2.2
     ⟨some 0, some "HOUSE_JOIN", some 5⟩ [] rfl (by decide) (by decide)⟩

/-- C7 counterexample: a failed auth write raises `SessionCreateError`,
not the claimed `RestartSessionError`. -/
theorem send_auth_error_counterexample :
    send_auth .failed = .error .sessionCreateError ∧
    PyErr.sessionCreateError ≠ PyErr.restartSessionError :=
  ⟨rfl, by decide⟩

/-- C7 amended: a failed heartbeat write is promoted to
`RestartSessionError`, while a failed auth write is promoted to
`SessionCreateError`; successful writes raise nothing. -/
theorem send_failure_promotion :
    send_heartbeat .failed = .error .restartSessionError ∧
    send_auth .failed = .error .sessionCreateError ∧
    send_heartbeat .ok = .ok () ∧
    send_auth .ok = .ok () :=
  ⟨rfl, rfl, rfl, rfl⟩

/-- C3: every heartbeat send is spawned under a `wait_for` bound of 30,
but the spawned task is never awaited: a send failure (or timeout) stays
inside the detached task and `KeepAlive.run` surfaces nothing - the
`RestartSessionError` never reaches the lifecycle manager. -/
theorem keepalive_send_failure_dropped :
    keepAliveRun true true [.tick .sendFailed, .tick .ok] =
      ([⟨30, .sendFailed⟩, ⟨30, .ok⟩], none) ∧
    keepAliveRun true true [.tick .timedOut] = ([⟨30, .timedOut⟩], none) ∧
    keepAliveRun true true [.cancelled .sendFailed] =
      ([⟨30, .sendFailed⟩], none) := by decide

/-- C8: once `stop` has run, `_active` is false so the loop spawns no
further heartbeat task whatever events follow; `stop` is idempotent and
total (safe to call any number of times); and the in-flight task object is
never cancelled by `stop` (the cancel call is guarded by the task already
being cancelled), so an in-flight send is left to finish. -/
theorem stop_halts_keepalive (s : KeepAliveState) (evs : List LoopEvent)
    (wsOpen : Bool) :
    (stop s).1.active = false ∧
    keepAliveRun wsOpen (stop s).1.active evs = ([], none) ∧
    stop (stop s).1 = ((stop s).1, none) ∧
    (∀ t : TaskHandle, stopTaskEffect (some t) = some t) := by
  refine ⟨rfl, ?_, rfl, ?_⟩
  · cases evs <;> simp [keepAliveRun, stop]
  · intro t
    cases t with
    | mk cr => cases cr <;> simp [stopTaskEffect, taskCancel]
